import Mathlib

/-!
Verification of the portfolio front-end behaviors, shallowly embedded from
the JavaScript sources: the theme switcher (src/js/scroll-animations.js,
ThemeSwitcher part), the scroll reveal system (ScrollAnimations part), the
canvas particle field (src/js/particle-background.js), the fireflies
(src/js/fireflies.js) and the carousel (src/js/main.js).
-/

namespace ThemeSwitcher

/-- The observable state of the `ThemeSwitcher` instance together with the
browser state it mutates: `theme` is `this.theme`, `storage` is the
`localStorage` entry for key `theme` (`none` = key absent), `domAttr` is the
`data-theme` attribute on `document.documentElement`, `events` is the list
of `themechange` events dispatched so far (each carrying its theme payload),
and `errors` counts `console.error` calls. -/
structure State where
  theme : String
  storage : Option String
  domAttr : Option String
  events : List String
  errors : Nat
deriving Repr, DecidableEq

/-- `applyTheme(theme)`: sets the `data-theme` attribute, persists the value
under the `theme` key, records it in `this.theme`, and dispatches one
`themechange` event carrying the theme. -/
def applyTheme (s : State) (t : String) : State :=
  { theme := t
    storage := some t
    domAttr := some t
    events := s.events ++ [t]
    errors := s.errors }

/-- `getCurrentTheme()`: returns `this.theme`. -/
def getCurrentTheme (s : State) : String :=
  s.theme

/-- `setTheme(theme)`: applies the theme when it is `"light"` or `"dark"`,
otherwise logs an error and changes nothing. -/
def setTheme (s : State) (t : String) : State :=
  if t = "light" ∨ t = "dark" then
    applyTheme s t
  else
    { s with errors := s.errors + 1 }

/-- `toggleTheme()`: applies `"dark"` when the current theme is `"light"`,
otherwise applies `"light"`. -/
def toggleTheme (s : State) : State :=
  applyTheme s (if s.theme = "light" then "dark" else "light")

/-- `getPreferredTheme()`: maps the OS-level dark-mode media query to a
theme value. -/
def getPreferredTheme (osDark : Bool) : String :=
  if osDark then "dark" else "light"

/-- `resetToSystemPreference()`: removes the persisted `theme` key, then
applies the OS-derived theme via `applyTheme`. -/
def resetToSystemPreference (s : State) (osDark : Bool) : State :=
  applyTheme { s with storage := none } (getPreferredTheme osDark)

/-- Every `applyTheme` call leaves the persisted value equal to the current
theme; since the constructor runs `applyTheme` during `init()`, every
reachable post-init state satisfies this invariant. -/
theorem applyTheme_storage_eq (s : State) (t : String) :
    (applyTheme s t).storage = some (applyTheme s t).theme := rfl

end ThemeSwitcher

namespace ThemeSwitcher

/-- C1: `resetToSystemPreference()` does set the current theme to the
OS-derived value, but it does NOT leave the persisted key absent: the
`applyTheme` it calls re-persists the derived value, so immediately after
the call the storage holds `some` derived theme rather than `none`.  This
contradicts the claim (and the stated purpose of the method, since
`watchSystemTheme` only follows OS changes while the key is absent). -/
theorem resetToSystemPreference_repersists (s : State) (osDark : Bool) :
    (resetToSystemPreference s osDark).theme = getPreferredTheme osDark ∧
    (resetToSystemPreference s osDark).storage =
      some (getPreferredTheme osDark) ∧
    (resetToSystemPreference s osDark).storage ≠ none := by
  refine ⟨rfl, rfl, ?_⟩
  simp [resetToSystemPreference, applyTheme]

/-- C2: for a valid theme value `v` (`"light"` or `"dark"`), `setTheme v`
followed by `getCurrentTheme` returns `v`, and the call appends exactly one
`themechange` event, carrying `v`, to the event log. -/
theorem setTheme_valid (s : State) (v : String)
    (hv : v = "light" ∨ v = "dark") :
    getCurrentTheme (setTheme s v) = v ∧
    (setTheme s v).events = s.events ++ [v] := by
  constructor <;> simp [setTheme, hv, applyTheme, getCurrentTheme]

/-- Witness for C2 at `v = "light"`. -/
theorem setTheme_valid_witness :
    getCurrentTheme
        (setTheme ⟨"dark", some "dark", some "dark", [], 0⟩ "light") =
      "light" ∧
    (setTheme ⟨"dark", some "dark", some "dark", [], 0⟩ "light").events =
      ([] : List String) ++ ["light"] :=
  setTheme_valid ⟨"dark", some "dark", some "dark", [], 0⟩ "light"
    (Or.inl rfl)

/-- C3: for an invalid theme value `v`, `setTheme v` leaves the current
theme, the `data-theme` attribute, the persisted value and the event log
unchanged, and logs one error. -/
theorem setTheme_invalid (s : State) (v : String)
    (h1 : v ≠ "light") (h2 : v ≠ "dark") :
    (setTheme s v).theme = s.theme ∧
    (setTheme s v).domAttr = s.domAttr ∧
    (setTheme s v).storage = s.storage ∧
    (setTheme s v).events = s.events ∧
    (setTheme s v).errors = s.errors + 1 := by
  simp [setTheme, h1, h2]

/-- Witness for C3 at `v = "blue"`. -/
theorem setTheme_invalid_witness :
    (setTheme ⟨"light", some "light", some "light", [], 0⟩ "blue").theme =
      "light" ∧
    (setTheme ⟨"light", some "light", some "light", [], 0⟩ "blue").domAttr =
      some "light" ∧
    (setTheme ⟨"light", some "light", some "light", [], 0⟩ "blue").storage =
      some "light" ∧
    (setTheme ⟨"light", some "light", some "light", [], 0⟩ "blue").events =
      ([] : List String) ∧
    (setTheme ⟨"light", some "light", some "light", [], 0⟩ "blue").errors =
      0 + 1 :=
  setTheme_invalid ⟨"light", some "light", some "light", [], 0⟩ "blue"
    (by decide) (by decide)

/-- C8: from any reachable state (one whose persisted value matches the
current theme, as `applyTheme_storage_eq` shows holds after `init()` and
after every mutation) whose theme is `"light"` or `"dark"`, toggling twice
restores both the current theme and the persisted value. -/
theorem toggleTheme_twice (s : State)
    (hs : s.storage = some s.theme)
    (hv : s.theme = "light" ∨ s.theme = "dark") :
    (toggleTheme (toggleTheme s)).theme = s.theme ∧
    (toggleTheme (toggleTheme s)).storage = s.storage := by
  rcases hv with h | h <;> simp [toggleTheme, applyTheme, h, hs]

/-- Witness for C8 starting from the dark theme. -/
theorem toggleTheme_twice_witness :
    (toggleTheme
        (toggleTheme ⟨"dark", some "dark", some "dark", [], 0⟩)).theme =
      "dark" ∧
    (toggleTheme
        (toggleTheme ⟨"dark", some "dark", some "dark", [], 0⟩)).storage =
      some "dark" :=
  toggleTheme_twice ⟨"dark", some "dark", some "dark", [], 0⟩ rfl
    (Or.inr rfl)

end ThemeSwitcher

namespace ScrollAnimations

/-- The observer-relevant state of one watched element: `visible` is whether
it carries the `is-visible` class, `observed` is whether the
`IntersectionObserver` still watches it (after `unobserve` no further
entries are delivered for it). -/
structure RevealState where
  visible : Bool
  observed : Bool
deriving Repr, DecidableEq

/-- One delivered `IntersectionObserverEntry` for the element, processed by
`handleIntersection`: when the entry intersects, `animateElement` marks the
element visible and, in `once` mode, the element is unobserved; when it does
not intersect, the `is-visible` class is removed only when not in `once`
mode.  An entry for an unobserved element is never delivered, which the
guard on `observed` models. -/
def handleIntersectionStep (once : Bool) (s : RevealState)
    (isIntersecting : Bool) : RevealState :=
  if s.observed then
    if isIntersecting then
      { visible := true, observed := !once }
    else if !once then
      { s with visible := false }
    else
      s
  else
    s

/-- The state of a freshly observed element: not visible, observed. -/
def initialReveal : RevealState :=
  { visible := false, observed := true }

/-- Processing a sequence of delivered entries. -/
def runEntries (once : Bool) (s : RevealState) (evs : List Bool) :
    RevealState :=
  evs.foldl (handleIntersectionStep once) s

/-- Helper: in `once` mode the `is-visible` flag after a delivered entry
sequence equals "some entry intersected". -/
theorem visible_eq_any (evs : List Bool) :
    (runEntries true initialReveal evs).visible = evs.any id := by
  have key : ∀ (l : List Bool) (s : RevealState),
      s.visible = true → s.observed = false →
      runEntries true s l = s := by
    intro l
    induction l with
    | nil => intro s _ _; rfl
    | cons e t ih =>
      intro s hv ho
      have hstep : handleIntersectionStep true s e = s := by
        simp [handleIntersectionStep, ho]
      simpa [runEntries, List.foldl_cons, hstep] using ih s hv ho
  induction evs with
  | nil => rfl
  | cons e t ih =>
    cases e with
    | false =>
      simpa [runEntries, List.foldl_cons, handleIntersectionStep,
        initialReveal] using ih
    | true =>
      have h1 : handleIntersectionStep true initialReveal true =
          { visible := true, observed := false } := by
        simp [handleIntersectionStep, initialReveal]
      have h2 : runEntries true { visible := true, observed := false } t =
          { visible := true, observed := false } := key t _ rfl rfl
      simp [runEntries, List.foldl_cons, h1]
      simpa [runEntries] using congrArg RevealState.visible h2

/-- C4: in `once` mode the visible flag of a watched element starts false,
equals "some delivered entry intersected" after any entry sequence (so it
becomes true at the first qualifying intersection), and once true it stays
true under any further delivered entries — including ones where the element
has left the visible region. -/
theorem once_visible_monotonic :
    initialReveal.visible = false ∧
    (∀ evs : List Bool,
      (runEntries true initialReveal evs).visible = evs.any id) ∧
    (∀ pre post : List Bool,
      (runEntries true initialReveal pre).visible = true →
      (runEntries true initialReveal (pre ++ post)).visible = true) := by
  refine ⟨rfl, visible_eq_any, ?_⟩
  intro pre post hpre
  rw [visible_eq_any] at hpre ⊢
  simp only [List.any_append, hpre, Bool.true_or]

/-- Witness for C4: one intersecting entry, then one exiting entry. -/
theorem once_visible_monotonic_witness :
    (runEntries true initialReveal [true]).visible = true ∧
    (runEntries true initialReveal ([true] ++ [false])).visible = true :=
  ⟨by decide, once_visible_monotonic.2.2 [true] [false] (by decide)⟩

/-- One element as `animateElement` sees it: its identity (distinct DOM
nodes), its `transitionDelay` inline style (in seconds; `none` = not set)
and whether it carries the `is-visible` class. -/
structure Elem where
  id : ℕ
  transitionDelay : Option ℚ
  visibleClass : Bool
deriving Repr, DecidableEq

/-- `animateElement(element)`: when the element sits inside a
`[data-stagger]` parent, `siblings` is the parent's list of `[data-animate]`
element ids in document order and the element's `transitionDelay` is set to
its index in that list times 0.1 s; in every case the `is-visible` class is
added. -/
def animateElement (siblings : Option (List ℕ)) (e : Elem) : Elem :=
  match siblings with
  | some sib =>
      { e with
        transitionDelay := some ((sib.indexOf e.id : ℚ) * (1 / 10))
        visibleClass := true }
  | none => { e with visibleClass := true }

/-- C7: in a staggered group of `k` distinct elements, the element at index
`i` (`i = 0..k-1`) is assigned transition delay `i × 0.1` seconds when it is
marked visible. -/
theorem animateElement_stagger_delay (g : List ℕ) (i : ℕ)
    (hi : i < g.length) (hnd : g.Nodup) (e : Elem)
    (he : e.id = g.get ⟨i, hi⟩) :
    (animateElement (some g) e).transitionDelay = some ((i : ℚ) * (1 / 10)) ∧
    (animateElement (some g) e).visibleClass = true := by
  constructor
  · have hidx : g.indexOf e.id = i := by
      rw [he]
      simpa using List.indexOf_getElem hnd i hi
    simp [animateElement, hidx]
  · simp [animateElement]

/-- Witness for C7: the third element of the group `[5, 7, 9]` gets delay
`2 × 0.1`. -/
theorem animateElement_stagger_delay_witness :
    (animateElement (some [5, 7, 9]) ⟨9, none, false⟩).transitionDelay =
      some ((2 : ℚ) * (1 / 10)) ∧
    (animateElement (some [5, 7, 9]) ⟨9, none, false⟩).visibleClass = true :=
  animateElement_stagger_delay [5, 7, 9] 2 (by decide) (by decide)
    ⟨9, none, false⟩ (by decide)

end ScrollAnimations

namespace ParticleBackground

/-- One particle of the batch, as created by `createParticles`: position,
velocity, size, base opacity, palette index and pulse phase.  Coordinates
and speeds are modelled as exact rationals. -/
structure Particle where
  x : ℚ
  y : ℚ
  size : ℚ
  speedX : ℚ
  speedY : ℚ
  opacity : ℚ
  colorIndex : ℕ
  pulseOffset : ℚ
deriving Repr, DecidableEq

/-- `updateParticle(particle)`: advance the position by the velocity, then
wrap each coordinate that left the canvas back to the opposite edge, with
the four `if`s tested in the source's order (`x < 0`, `x > width`, `y < 0`,
`y > height`) on the already-mutated value. -/
def updateParticle (width height : ℚ) (p : Particle) : Particle :=
  let x0 := p.x + p.speedX
  let y0 := p.y + p.speedY
  let x1 := if x0 < 0 then width else x0
  let x2 := if x1 > width then 0 else x1
  let y1 := if y0 < 0 then height else y0
  let y2 := if y1 > height then 0 else y1
  { p with x := x2, y := y2 }

/-- C5: after the wrap step of `updateParticle` the particle lies in
`[0, width] × [0, height]` (for nonnegative canvas dimensions), and the
wraps act as claimed: a coordinate that moved past the width resets to 0,
one that moved below 0 resets to the width, and likewise vertically. -/
theorem updateParticle_in_bounds (width height : ℚ) (p : Particle)
    (hw : 0 ≤ width) (hh : 0 ≤ height) :
    (0 ≤ (updateParticle width height p).x ∧
      (updateParticle width height p).x ≤ width ∧
      0 ≤ (updateParticle width height p).y ∧
      (updateParticle width height p).y ≤ height) ∧
    (p.x + p.speedX > width → (updateParticle width height p).x = 0) ∧
    (p.x + p.speedX < 0 → (updateParticle width height p).x = width) ∧
    (p.y + p.speedY > height → (updateParticle width height p).y = 0) ∧
    (p.y + p.speedY < 0 → (updateParticle width height p).y = height) := by
  simp only [updateParticle]
  refine ⟨⟨?_, ?_, ?_, ?_⟩, ?_, ?_, ?_, ?_⟩ <;> try intro hcross
  all_goals split_ifs <;> first | rfl | linarith

/-- Witness for C5 on a 100 × 50 canvas with a particle crossing the right
edge. -/
theorem updateParticle_in_bounds_witness :
    ((0 : ℚ) ≤ 100 ∧ (0 : ℚ) ≤ 50) ∧
    (updateParticle 100 50 ⟨99, 20, 2, 3, -1, 1/4, 0, 0⟩).x = 0 :=
  ⟨⟨by norm_num, by norm_num⟩,
    (updateParticle_in_bounds 100 50 ⟨99, 20, 2, 3, -1, 1/4, 0, 0⟩
        (by norm_num) (by norm_num)).2.1 (by norm_num)⟩

/-- The lifecycle-relevant state of a `ParticleBackground` instance together
with the window's listener registry.  Each JavaScript `.bind(this)` call
produces a fresh function object; `nextFnId` is the next fresh id and
`listeners` records the `(event name, bound function id)` pairs currently
registered on `window`. -/
structure PBState where
  listeners : List (String × ℕ)
  nextFnId : ℕ
  animationId : Option ℕ
  particles : List Particle
  canvasCleared : Bool
deriving Repr, DecidableEq

/-- `init()`: registers `this.resize.bind(this)` for `resize` and
`this.handleThemeChange.bind(this)` for `themechange` (two fresh bound
functions, ids 0 and 1), creates the particle batch, and starts the
animation-frame chain. -/
def pbInit (ps : List Particle) : PBState :=
  { listeners := [("resize", 0), ("themechange", 1)]
    nextFnId := 2
    animationId := some 0
    particles := ps
    canvasCleared := false }

/-- `pause()`: cancels the pending animation frame, when one is scheduled,
and clears the stored id, stopping the redraw chain. -/
def pause (s : PBState) : PBState :=
  if s.animationId.isSome then { s with animationId := none } else s

/-- `removeEventListener(ev, fn)`: removes the registration only when the
exact function object is currently registered for that event. -/
def removeEventListener (reg : List (String × ℕ)) (ev : String) (fn : ℕ) :
    List (String × ℕ) :=
  reg.filter (fun p => ¬(p.1 = ev ∧ p.2 = fn))

/-- `destroy()`: calls `pause()`, then calls `removeEventListener` with
`this.resize.bind(this)` and `this.handleThemeChange.bind(this)` — each
`.bind(this)` creating a fresh function object (fresh ids), not the ones
registered in `init()` — then empties the particle batch and clears the
canvas. -/
def destroy (s : PBState) : PBState :=
  let s1 := pause s
  let fid1 := s1.nextFnId
  let s2 := { s1 with
    nextFnId := fid1 + 1
    listeners := removeEventListener s1.listeners "resize" fid1 }
  let fid2 := s2.nextFnId
  let s3 := { s2 with
    nextFnId := fid2 + 1
    listeners := removeEventListener s2.listeners "themechange" fid2 }
  { s3 with particles := [], canvasCleared := true }

/-- C6: after `destroy()` the animation-frame chain is cancelled (no
scheduled redraw remains), the batch is emptied and the canvas cleared — but
the `resize` and `themechange` listeners registered in `init()` are still
attached: `destroy` passes freshly `.bind(this)`-created functions to
`removeEventListener`, which therefore removes nothing. -/
theorem destroy_listeners_remain (ps : List Particle) :
    (destroy (pbInit ps)).animationId = none ∧
    (destroy (pbInit ps)).particles = [] ∧
    (destroy (pbInit ps)).canvasCleared = true ∧
    (destroy (pbInit ps)).listeners = [("resize", 0), ("themechange", 1)] :=
  ⟨rfl, rfl, rfl, rfl⟩

end ParticleBackground

namespace Fireflies

/-- One firefly: simulation fields (`x`, `y` in viewport units, drift `dx`,
`dy`, glow `phase` and `speed`, `size`) plus the inline styles the animation
writes on its element (`left`, `top`, `opacity` as numeric values).  `sin`
is passed in abstractly below since only the light-mode branch uses it. -/
structure Firefly where
  x : ℚ
  y : ℚ
  size : ℚ
  dx : ℚ
  dy : ℚ
  phase : ℚ
  speed : ℚ
  left : ℚ
  top : ℚ
  opacity : ℚ
deriving Repr, DecidableEq

/-- The per-frame body of `animate` for one firefly: `dark` is the result of
`isDark()` read from the DOM at the start of this frame.  When dark, the
element's opacity is set to 0 and the loop `continue`s — no drift, wrap,
phase or glow update.  Otherwise the position drifts by `d * dt * 8`, wraps
at the −5/105 viewport-fraction boundaries, the phase advances, and the glow
`0.15 + 0.55·sin²(phase)` is written to the opacity. -/
def fireflyStep (sinq : ℚ → ℚ) (dark : Bool) (dt : ℚ) (f : Firefly) :
    Firefly :=
  if dark then
    { f with opacity := 0 }
  else
    let x0 := f.x + f.dx * dt * 8
    let y0 := f.y + f.dy * dt * 8
    let x1 := if x0 < -5 then 105 else x0
    let x2 := if x1 > 105 then -5 else x1
    let y1 := if y0 < -5 then 105 else y0
    let y2 := if y1 > 105 then -5 else y1
    let phase1 := f.phase + f.speed * dt
    let glow := 15 / 100 + 55 / 100 * sinq phase1 ^ 2
    { f with
      x := x2, y := y2, phase := phase1
      left := x2, top := y2, opacity := glow }

/-- One animation frame over the whole firefly pool. -/
def animateFrame (sinq : ℚ → ℚ) (dark : Bool) (dt : ℚ)
    (fs : List Firefly) : List Firefly :=
  fs.map (fireflyStep sinq dark dt)

/-- C9: on any frame where the dark theme is active (the flag is read from
the DOM anew each frame), every firefly ends the frame with zero opacity,
and no drift, wrap, phase or glow update is applied: each firefly is exactly
its old self with opacity 0. -/
theorem animateFrame_dark (sinq : ℚ → ℚ) (dt : ℚ) (fs : List Firefly) :
    animateFrame sinq true dt fs =
      fs.map (fun f => { f with opacity := 0 }) ∧
    ∀ f ∈ fs,
      (fireflyStep sinq true dt f).opacity = 0 ∧
      (fireflyStep sinq true dt f).x = f.x ∧
      (fireflyStep sinq true dt f).y = f.y ∧
      (fireflyStep sinq true dt f).phase = f.phase ∧
      (fireflyStep sinq true dt f).left = f.left ∧
      (fireflyStep sinq true dt f).top = f.top :=
  ⟨rfl, fun _ _ => ⟨rfl, rfl, rfl, rfl, rfl, rfl⟩⟩

/-- Witness for C9 on a one-firefly pool. -/
theorem animateFrame_dark_witness :
    ((⟨10, 20, 5, 1, -1, 0, 1, 10, 20, 1/2⟩ : Firefly) ∈
      [(⟨10, 20, 5, 1, -1, 0, 1, 10, 20, 1/2⟩ : Firefly)]) ∧
    (fireflyStep (fun q => q) true 1
        ⟨10, 20, 5, 1, -1, 0, 1, 10, 20, 1/2⟩).opacity = 0 :=
  ⟨List.mem_singleton.mpr rfl,
    ((animateFrame_dark (fun q => q) 1
          [⟨10, 20, 5, 1, -1, 0, 1, 10, 20, 1/2⟩]).2
        ⟨10, 20, 5, 1, -1, 0, 1, 10, 20, 1/2⟩
        (List.mem_singleton.mpr rfl)).1⟩

end Fireflies

namespace Carousel

/-- One carousel as set up by `initCarousels`: `n` slides, the closure
variable `currentIndex`, and the sets of slide indices and dot indices whose
elements currently carry the `active` class. -/
structure CarouselState where
  n : ℕ
  current : ℕ
  slideActive : Finset ℕ
  dotActive : Finset ℕ
deriving DecidableEq

/-- `goToSlide(index)`: removes `active` from the slide and dot at
`currentIndex`, sets `currentIndex = (index + slides.length) %
slides.length` (JavaScript `%` is truncating remainder, `Int.tmod`), and
adds `active` to the slide and dot at the new index. -/
def goToSlide (s : CarouselState) (index : ℤ) : CarouselState :=
  let slideA := s.slideActive.erase s.current
  let dotA := s.dotActive.erase s.current
  let newIdx := ((index + (s.n : ℤ)).tmod (s.n : ℤ)).toNat
  { s with
    current := newIdx
    slideActive := insert newIdx slideA
    dotActive := insert newIdx dotA }

/-- `nextSlide()`: `goToSlide(currentIndex + 1)`. -/
def nextSlide (s : CarouselState) : CarouselState :=
  goToSlide s ((s.current : ℤ) + 1)

/-- `prevSlide()`: `goToSlide(currentIndex - 1)`. -/
def prevSlide (s : CarouselState) : CarouselState :=
  goToSlide s ((s.current : ℤ) - 1)

/-- A user operation on the carousel: next button, previous button, or a
click on the dot created for slide `k` (dots exist only for `k < n`, which
the guard in `applyOp` reflects). -/
inductive Op where
  | next : Op
  | prev : Op
  | dot : ℕ → Op
deriving Repr, DecidableEq

/-- Dispatch one operation. -/
def applyOp (s : CarouselState) : Op → CarouselState
  | .next => nextSlide s
  | .prev => prevSlide s
  | .dot k => if k < s.n then goToSlide s k else s

/-- The initial carousel state: `currentIndex = 0`, and slide 0 and dot 0
carry the `active` class (the dot is created with it, the slide has it in
the markup). -/
def initCarousel (n : ℕ) : CarouselState :=
  { n := n, current := 0, slideActive := {0}, dotActive := {0} }

/-- Running an operation sequence from the initial state. -/
def runOps (n : ℕ) (ops : List Op) : CarouselState :=
  ops.foldl applyOp (initCarousel n)

/-- The carousel invariant: the current index is in range and exactly the
current slide and the current dot carry the `active` class. -/
def Inv (s : CarouselState) : Prop :=
  s.current < s.n ∧
  s.slideActive = {s.current} ∧
  s.dotActive = {s.current}

/-- Helper: `goToSlide` preserves the invariant whenever the requested index
satisfies `index + n ≥ 0` (true at all three call sites). -/
theorem goToSlide_inv (s : CarouselState) (hInv : Inv s) (index : ℤ)
    (hidx : 0 ≤ index + (s.n : ℤ)) : Inv (goToSlide s index) := by
  obtain ⟨hcur, hslide, hdot⟩ := hInv
  have hn : 0 < (s.n : ℤ) := by exact_mod_cast Nat.pos_of_ne_zero (by omega)
  have hmod : (index + (s.n : ℤ)).tmod (s.n : ℤ) =
      (index + (s.n : ℤ)) % (s.n : ℤ) :=
    Int.tmod_eq_emod hidx (le_of_lt hn)
  have h0 : 0 ≤ (index + (s.n : ℤ)) % (s.n : ℤ) :=
    Int.emod_nonneg _ (ne_of_gt hn)
  have hlt : (index + (s.n : ℤ)) % (s.n : ℤ) < (s.n : ℤ) :=
    Int.emod_lt_of_pos _ hn
  refine ⟨?_, ?_, ?_⟩
  · show ((index + (s.n : ℤ)).tmod (s.n : ℤ)).toNat < s.n
    rw [hmod]
    omega
  · show insert _ (s.slideActive.erase s.current) = _
    rw [hslide, Finset.erase_singleton]
    rfl
  · show insert _ (s.dotActive.erase s.current) = _
    rw [hdot, Finset.erase_singleton]
    rfl

/-- Helper: every operation preserves the invariant. -/
theorem applyOp_inv (s : CarouselState) (hInv : Inv s) (op : Op) :
    Inv (applyOp s op) := by
  have hcur := hInv.1
  cases op with
  | next => exact goToSlide_inv s hInv _ (by omega)
  | prev => exact goToSlide_inv s hInv _ (by omega)
  | dot k =>
    by_cases hk : k < s.n
    · simpa [applyOp, hk] using goToSlide_inv s hInv (k : ℤ) (by omega)
    · simpa [applyOp, hk] using hInv

/-- Helper: the invariant holds after any operation sequence from the
initial state of a carousel with at least one slide. -/
theorem runOps_inv (n : ℕ) (hn : 1 ≤ n) (ops : List Op) :
    Inv (runOps n ops) := by
  have key : ∀ (l : List Op) (s : CarouselState), Inv s →
      Inv (l.foldl applyOp s) := by
    intro l
    induction l with
    | nil => intro s hs; exact hs
    | cons op t ih =>
      intro s hs
      exact ih _ (applyOp_inv s hs op)
  exact key ops (initCarousel n) ⟨hn, rfl, rfl⟩

/-- C10: for a carousel with `n ≥ 1` slides, after any sequence of next /
previous / dot-click operations the current index is in `[0, n)` and
exactly one slide index and one dot index carry the `active` class; the
wrapping is cyclic: from index 0 one previous lands on `n − 1`, and from
index `n − 1` one next lands on 0. -/
theorem carousel_invariant (n : ℕ) (hn : 1 ≤ n) :
    (∀ ops : List Op,
      (runOps n ops).current < n ∧
      (runOps n ops).slideActive = {(runOps n ops).current} ∧
      (runOps n ops).dotActive = {(runOps n ops).current} ∧
      (runOps n ops).slideActive.card = 1 ∧
      (runOps n ops).dotActive.card = 1) ∧
    (∀ ops : List Op, (runOps n ops).current = 0 →
      (prevSlide (runOps n ops)).current = n - 1) ∧
    (∀ ops : List Op, (runOps n ops).current = n - 1 →
      (nextSlide (runOps n ops)).current = 0) := by
  have hrun : ∀ ops : List Op, Inv (runOps n ops) := runOps_inv n hn
  have hN : ∀ ops : List Op, (runOps n ops).n = n := by
    intro ops
    have base : (initCarousel n).n = n := rfl
    have step : ∀ (l : List Op) (s : CarouselState),
        (l.foldl applyOp s).n = s.n := by
      intro l
      induction l with
      | nil => intro s; rfl
      | cons op t ih =>
        intro s
        have hop : (applyOp s op).n = s.n := by
          cases op with
          | next => rfl
          | prev => rfl
          | dot k =>
            by_cases hk : k < s.n <;> simp [applyOp, hk, goToSlide]
        rw [List.foldl_cons, ih, hop]
    exact step ops (initCarousel n)
  refine ⟨?_, ?_, ?_⟩
  · intro ops
    obtain ⟨h1, h2, h3⟩ := hrun ops
    rw [hN ops] at h1
    exact ⟨h1, h2, h3, by rw [h2]; exact Finset.card_singleton _,
      by rw [h3]; exact Finset.card_singleton _⟩
  · intro ops h0
    show ((((runOps n ops).current : ℤ) - 1 +
        ((runOps n ops).n : ℤ)).tmod ((runOps n ops).n : ℤ)).toNat = n - 1
    rw [h0, hN ops]
    have harg : ((0 : ℕ) : ℤ) - 1 + (n : ℤ) = (n : ℤ) - 1 := by ring
    rw [harg]
    have h1 : ((n : ℤ) - 1).tmod (n : ℤ) = (n : ℤ) - 1 := by
      rw [Int.tmod_eq_emod (by omega) (by omega)]
      exact Int.emod_eq_of_lt (by omega) (by omega)
    rw [h1]
    omega
  · intro ops hlast
    show ((((runOps n ops).current : ℤ) + 1 +
        ((runOps n ops).n : ℤ)).tmod ((runOps n ops).n : ℤ)).toNat = 0
    rw [hlast, hN ops]
    have harg : (((n - 1 : ℕ) : ℤ)) + 1 + (n : ℤ) = (n : ℤ) + (n : ℤ) := by
      omega
    rw [harg]
    have h1 : ((n : ℤ) + (n : ℤ)).tmod (n : ℤ) = 0 := by
      rw [Int.tmod_eq_emod (by omega) (by omega)]
      have h2 : (n : ℤ) + (n : ℤ) = 2 * (n : ℤ) := by ring
      rw [h2, Int.mul_emod_left]
    rw [h1]
    rfl

/-- Witness for C10 on a three-slide carousel: previous from slide 0 wraps
to slide 2. -/
theorem carousel_invariant_witness :
    (runOps 3 []).current = 0 ∧ (prevSlide (runOps 3 [])).current = 3 - 1 :=
  ⟨by decide, (carousel_invariant 3 (by decide)).2.1 [] (by decide)⟩

end Carousel
